import Mathlib

/-!
# Verification of the RIK open-data ingestion and tiered-resolution subsystem

Shallow embedding of the data-access subsystem of `estonia-ai-kit`:

* `mcp/rik/scripts/create-database.js` — the SQLite importer
  (`importCompaniesFromCSV`, `importBoardMembers`) and its schema;
* `mcp/rik/src/clients/rik-database-client.ts` — the embedded-store query
  engine (`RIKDatabaseClient`);
* `mcp/rik/src/clients/rik-open-data-client.ts` — the file-backed fallback
  client (`RIKOpenDataClient`);
* `mcp/rik/src/clients/index.ts` — the tiered resolver facade (`RIKClient`).

JavaScript string-or-null/undefined values are modelled as `Option String`,
with JS truthiness (`null`, `undefined` and `""` are falsy).  SQLite tables
are modelled as lists of row structures in insertion order.
-/

namespace EstoniaKit

/-- A JavaScript string value that may be `null`/`undefined` (and, on the
SQLite side, a `TEXT` column value that may be `NULL`). -/
abbrev JStr := Option String

/-- JS truthiness of a string-or-null value: `null`, `undefined` and the
empty string are falsy, every other string is truthy. -/
def jsTruthy : JStr → Bool
  | none => false
  | some s => s ≠ ""

/-- `x || ''` in JS: coerce a string-or-null to a string. -/
def jsStr (a : JStr) : String := a.getD ""

/-- `a || b` in JS, both operands strings: `b` when `a` is falsy (empty). -/
def jsOrStr (a b : String) : String := if a = "" then b else a

/-- `a || b` in JS where `a` is a string-or-null and `b` a string. -/
def jsOr (a : JStr) (b : String) : String :=
  if jsTruthy a then jsStr a else b

/-- `a || b` in JS where both operands are string-or-null values. -/
def jsOrJ (a b : JStr) : JStr :=
  if jsTruthy a then a else b

/-! ## Schema: the `board_members` table

`create-database.js` lines 44–60.  The table has an `AUTOINCREMENT` integer
primary key (so rows are append-only and no column combination is unique)
and a stored generated column
`full_name TEXT GENERATED ALWAYS AS (first_name || ' ' || last_name)`.
In SQLite `||` yields `NULL` when either operand is `NULL`. -/

/-- SQLite concatenation `first_name || ' ' || last_name`:
`NULL` when either part is `NULL`, otherwise the parts joined by a single
space. -/
def genFullName (first last : JStr) : JStr :=
  match first, last with
  | some f, some l => some (f ++ " " ++ l)
  | _, _ => none

/-- One row of the `board_members` table.  `full_name` is stored, but it is
only ever written through `mkBoardRow`, which computes it from the name
parts — the embedding of the `GENERATED ALWAYS … STORED` column. -/
structure BoardMemberRow where
  registry_code : String
  person_type : JStr
  person_role : JStr
  role_text : JStr
  first_name : JStr
  last_name : JStr
  personal_code_hash : JStr
  start_date : JStr
  end_date : JStr
  address_country : JStr
  address_full : JStr
  email : JStr
  full_name : JStr
  deriving Repr, DecidableEq

/-! ## Streaming JSON importer for board members

`create-database.js` lines 196–341 (`importBoardMembers`,
`importBoardMembersFromArray`).  Each top-level dump object carries the
parent `ariregistri_kood` and an optional nested array
`kaardile_kantud_isikud` of person entries; every nested entry becomes one
plain `INSERT INTO board_members` (no conflict clause).  Batching into
transactions of 1000 only groups commits and does not change the resulting
table contents, so the net effect on the table is an in-order append. -/

/-- One nested person entry of the
`ettevotja_rekvisiidid__kaardile_kantud_isikud.json` dump. -/
structure PersonEntry where
  isiku_tyyp : JStr
  isiku_roll : JStr
  isiku_roll_tekstina : JStr
  eesnimi : JStr
  nimi_arinimi : JStr
  isikukood_hash : JStr
  algus_kpv : JStr
  lopp_kpv : JStr
  aadress_riik_tekstina : JStr
  aadress_ads : JStr
  email : JStr
  deriving Repr, DecidableEq

/-- One top-level object of the board-members JSON dump.  `none` models an
object whose `kaardile_kantud_isikud` field is absent or not an array
(the importer guards with `Array.isArray`). -/
structure DumpCompany where
  ariregistri_kood : String
  kaardile_kantud_isikud : Option (List PersonEntry)
  deriving Repr, DecidableEq

/-- The row built for one nested entry: the parent's identifier plus the
entry's fields, with the generated `full_name` computed from
`eesnimi`/`nimi_arinimi` at write time. -/
def mkBoardRow (code : String) (m : PersonEntry) : BoardMemberRow :=
  { registry_code := code
    person_type := m.isiku_tyyp
    person_role := m.isiku_roll
    role_text := m.isiku_roll_tekstina
    first_name := m.eesnimi
    last_name := m.nimi_arinimi
    personal_code_hash := m.isikukood_hash
    start_date := m.algus_kpv
    end_date := m.lopp_kpv
    address_country := m.aadress_riik_tekstina
    address_full := m.aadress_ads
    email := m.email
    full_name := genFullName m.eesnimi m.nimi_arinimi }

/-- The rows contributed by one dump object. -/
def dumpRows (c : DumpCompany) : List BoardMemberRow :=
  (c.kaardile_kantud_isikud.getD []).map (mkBoardRow c.ariregistri_kood)

/-- `importBoardMembers`: run the streaming JSON child importer over a dump
against an existing `board_members` table.  Plain `INSERT` appends one row
per nested entry, in dump order. -/
def importBoardMembers (table : List BoardMemberRow) (dump : List DumpCompany) :
    List BoardMemberRow :=
  table ++ dump.flatMap dumpRows

/-- Total number of nested child entries in a dump. -/
def dumpChildCount (dump : List DumpCompany) : Nat :=
  (dump.map (fun c => (c.kaardile_kantud_isikud.getD []).length)).sum

/-! ## Schema: the `companies` table and the delimited-file importer

`create-database.js` lines 26–41 (schema: `registry_code TEXT PRIMARY KEY`)
and lines 128–194 (`importCompaniesFromCSV`).  The importer streams the
semicolon-delimited file through `csv-parse` with `columns: true` (records
become header-keyed objects) and writes each record with
`INSERT OR REPLACE INTO companies`.  `csv-parse` without
`relax_column_count` raises `Invalid Record Length` on any data row whose
field count differs from the header's, which fires the stream's `error`
event and rejects the whole import promise. -/

/-- One row of the `companies` table.  `registry_code` is a `TEXT PRIMARY
KEY`; in a SQLite rowid table a `TEXT` primary key still admits `NULL`
(and `NULL` keys never conflict with each other), which the `JStr` key
type reflects. -/
structure CompanyRow where
  registry_code : JStr
  name : JStr
  status : JStr
  status_text : JStr
  legal_form : JStr
  vat_number : JStr
  address : JStr
  location : JStr
  normalized_address : JStr
  postal_code : JStr
  first_registration_date : JStr
  deriving Repr, DecidableEq

/-- `INSERT OR REPLACE INTO companies`: a row whose `registry_code`
conflicts with an existing row replaces it (the old row is deleted and the
new row appended); a `NULL` key never conflicts. -/
def insertOrReplaceCompany (table : List CompanyRow) (r : CompanyRow) :
    List CompanyRow :=
  match r.registry_code with
  | none => table ++ [r]
  | some k => table.filter (fun x => x.registry_code ≠ some k) ++ [r]

/-- A delimited input file after line splitting: the header fields and the
data rows as field lists (`skip_empty_lines` has removed blank lines and
`bom: true` has stripped the byte-order marker from the raw header). -/
structure CSVFile where
  header : List String
  rows : List (List String)
  deriving Repr, DecidableEq

/-- A parsed record under `columns: true`: header-name/field pairs. -/
abbrev CSVRecord := List (String × String)

/-- Object property access on a parsed record: `undefined` (`none`) when
the column is absent. -/
def fieldOf (rec : CSVRecord) (key : String) : JStr :=
  (rec.find? (fun p => p.1 = key)).map (·.2)

/-- `csv-parse` with `columns: true` and no `relax_column_count`: every
data row must have exactly as many fields as the header, else the parse
fails with `Invalid Record Length`. -/
def parseRecords (f : CSVFile) : Except String (List CSVRecord) :=
  if f.rows.all (fun r => r.length = f.header.length) then
    .ok (f.rows.map (fun r => f.header.zip r))
  else
    .error "Invalid Record Length"

/-- The `companies` row built from one parsed record (the bound parameters
of the prepared statement, including the `company.nimi || company[' nimi']`
byte-order-marker fallback). -/
def mkCompanyRow (rec : CSVRecord) : CompanyRow :=
  { registry_code := fieldOf rec "ariregistri_kood"
    name := jsOrJ (fieldOf rec "nimi") (fieldOf rec " nimi")
    status := fieldOf rec "ettevotja_staatus"
    status_text := fieldOf rec "ettevotja_staatus_tekstina"
    legal_form := fieldOf rec "ettevotja_oiguslik_vorm"
    vat_number := fieldOf rec "kmkr_nr"
    address := fieldOf rec "ettevotja_aadress"
    location := fieldOf rec "asukoht_ettevotja_aadressis"
    normalized_address := fieldOf rec "ads_normaliseeritud_taisaadress"
    postal_code := fieldOf rec "indeks_ettevotja_aadressis"
    first_registration_date := fieldOf rec "ettevotja_esmakande_kpv" }

/-- `importCompaniesFromCSV`: parse the delimited file and write every
record with `INSERT OR REPLACE`, in file order (batching into transactions
of 1000 only groups commits).  On success it resolves with the number of
data rows read (the importer's `count`) and the resulting table; a
malformed row rejects the promise with the parse error. -/
def importCompaniesFromCSV (table : List CompanyRow) (f : CSVFile) :
    Except String (Nat × List CompanyRow) :=
  (parseRecords f).map fun recs =>
    (recs.length, recs.foldl (fun acc rec => insertOrReplaceCompany acc (mkCompanyRow rec)) table)

/-- The key column of a table, in row order. -/
def companyKeys (table : List CompanyRow) : List JStr :=
  table.map (·.registry_code)

/-- Writing a list of rows in order with `INSERT OR REPLACE`. -/
def applyRows (t : List CompanyRow) (rs : List CompanyRow) : List CompanyRow :=
  rs.foldl insertOrReplaceCompany t

/-- A well-keyed table: no `NULL` identifiers and no identifier twice. -/
def wellKeyed (t : List CompanyRow) : Prop :=
  (companyKeys t).Nodup ∧ ∀ r ∈ t, r.registry_code ≠ none

/-! (idempotence lemmas for the CSV importer are in the lemma section
below) -/

/-! ## Embedded Store Query Engine: `RIKDatabaseClient`

`rik-database-client.ts`.  The client serves reads over the populated
store; the joined `company_general_data` table supplies the supplementary
attributes. -/

/-- A SQLite `REAL`/`INTEGER` value that may be `NULL`. -/
abbrev JNum := Option Rat

/-- One row of the `company_general_data` table. -/
structure GeneralDataRow where
  registry_code : JStr
  email : JStr
  phone : JStr
  capital : JNum
  activity_area : JStr
  founded_date : JStr
  website : JStr
  employees_count : JNum
  main_activity_code : JStr
  main_activity_text : JStr
  deriving Repr, DecidableEq

/-- The object returned by `RIKDatabaseClient.getCompanyDetails`. -/
structure CompanyDetails where
  registry_code : JStr
  name : JStr
  status : JStr
  status_text : JStr
  address : String
  vat_number : JStr
  email : JStr
  phone : JStr
  capital : JNum
  activity_area : JStr
  founded_date : JStr
  deriving Repr, DecidableEq

/-- The record built for a found company from its row and the left-joined
general-data row (`rik-database-client.ts` lines 115–127). -/
def detailsOf (c : CompanyRow) (g : Option GeneralDataRow) : CompanyDetails :=
  { registry_code := c.registry_code
    name := c.name
    status := c.status
    status_text := c.status_text
    address := jsOr c.normalized_address (jsOr c.address "")
    vat_number := c.vat_number
    email := g.bind (·.email)
    phone := g.bind (·.phone)
    capital := g.bind (·.capital)
    activity_area := jsOrJ (g.bind (·.activity_area)) (g.bind (·.main_activity_text))
    founded_date := jsOrJ (g.bind (·.founded_date)) c.first_registration_date }

namespace RIKDatabaseClient

/-- `RIKDatabaseClient.getCompanyDetails` (lines 90–128): `SELECT … FROM
companies c LEFT JOIN company_general_data g … WHERE c.registry_code = ?`,
then `stmt.get`.  When no row matches, the client throws
`Company not found: <code>` — modelled as `Except.error`; the return type
is `Promise<CompanyData>`, with no not-found variant. -/
def getCompanyDetails (companies : List CompanyRow)
    (general : List GeneralDataRow) (code : String) :
    Except String CompanyDetails :=
  match companies.find? (fun c => c.registry_code = some code) with
  | none => .error ("Company not found: " ++ code)
  | some c =>
      .ok (detailsOf c (general.find? (fun g => g.registry_code = some code)))

end RIKDatabaseClient

/-! ### `getBoardMembers` and the SQLite `ORDER BY start_date DESC` order

SQLite sorts `NULL` before every `TEXT` value in ascending order, so a
descending sort places `NULL` tenure dates last; text values compare
lexicographically (`BINARY` collation; the dump's dates are ASCII, where
byte order and code-point order agree). -/

/-- The SQLite ascending order on a nullable `TEXT` column. -/
def dateLe : JStr → JStr → Prop
  | none, _ => True
  | some _, none => False
  | some s, some t => s ≤ t

instance : ∀ a b : JStr, Decidable (dateLe a b)
  | none, _ => isTrue trivial
  | some _, none => isFalse id
  | some s, some t => inferInstanceAs (Decidable (s ≤ t))

/-- `ORDER BY start_date DESC` as a relation on `board_members` rows. -/
def bmDesc (a b : BoardMemberRow) : Prop := dateLe b.start_date a.start_date

instance : DecidableRel bmDesc := fun a b =>
  inferInstanceAs (Decidable (dateLe b.start_date a.start_date))

instance : IsTotal BoardMemberRow bmDesc :=
  ⟨fun a b => by
    unfold bmDesc
    rcases a.start_date with _ | x <;> rcases b.start_date with _ | y <;>
      simp [dateLe]
    exact le_total y.data x.data⟩

instance : IsTrans BoardMemberRow bmDesc :=
  ⟨fun a b c h₁ h₂ => by
    unfold bmDesc at *
    rcases hx : a.start_date with _ | x <;> rcases hy : b.start_date with _ | y <;>
      rcases hz : c.start_date with _ | z <;> simp_all [dateLe]
    exact le_trans h₂ h₁⟩

/-- The record shape returned to callers (`BoardMember` in
`types/index.ts`, as actually populated by the database client). -/
structure BoardMember where
  name : String
  role : String
  start_date : JStr
  end_date : JStr
  deriving Repr, DecidableEq

/-- The mapping applied to each fetched row
(`rik-database-client.ts` lines 149–154):
`name: m.full_name || (first + ' ' + last).trim() || 'Unknown'`,
`role: m.role_text || 'Board Member'`. -/
def toBoardMember (m : BoardMemberRow) : BoardMember :=
  { name := jsOr m.full_name
      (jsOrStr ((jsStr m.first_name ++ " " ++ jsStr m.last_name).trim) "Unknown")
    role := jsOr m.role_text "Board Member"
    start_date := m.start_date
    end_date := m.end_date }

namespace RIKDatabaseClient

/-- `RIKDatabaseClient.getBoardMembers` (lines 130–155): select all
`board_members` rows of the identifier, ordered by `start_date DESC`,
mapped through `toBoardMember`.  Insertion sort realizes the `ORDER BY`
(SQLite fixes only sortedness, not the order of ties). -/
def getBoardMembers (table : List BoardMemberRow) (code : String) :
    List BoardMember :=
  (List.insertionSort bmDesc (table.filter (fun r => r.registry_code = code))).map
    toBoardMember

end RIKDatabaseClient


/-! ## File-Backed Fallback Client: `RIKOpenDataClient`

`rik-open-data-client.ts`.  `loadBasicData` materializes the delimited
file into an insertion-ordered map; `searchCompanies` (lines 200–238)
scans its entries, testing the registry-code, name and free-text criteria
in an `else if` chain.  The `address` criterion of `CompanySearchParams`
is never consulted. -/

/-- One entry of the in-memory basic-data map (`CompanyBasicData`). -/
structure BasicRecord where
  ariregistri_kood : String
  nimi : JStr
  nimiBom : JStr
  ettevotja_staatus : JStr
  ettevotja_staatus_tekstina : JStr
  ettevotja_aadress : JStr
  kmkr_nr : JStr
  deriving Repr, DecidableEq

/-- The search criteria of `CompanySearchParams` used by the file-backed
client (all optional in TS). -/
structure SearchParams where
  registryCode : JStr
  name : JStr
  query : JStr
  address : JStr
  limit : Option Nat
  deriving Repr, DecidableEq

/-- `params.limit || 100` in JS: `0`, `null` and `undefined` all fall back
to the default. -/
def jsOrNum (o : Option Nat) (d : Nat) : Nat :=
  match o with
  | none => d
  | some n => if n = 0 then d else n

/-- `s.includes(sub)` in JS: substring containment. -/
def strIncludes (s sub : String) : Bool :=
  decide (sub.toList <:+: s.toList)

/-- `company.nimi || company[' nimi'] || ''` (byte-order-marker fallback). -/
def companyNameOf (c : BasicRecord) : String :=
  jsOr c.nimi (jsOr c.nimiBom "")

/-- `company.ettevotja_aadress || ''`. -/
def companyAddressOf (c : BasicRecord) : String :=
  jsOr c.ettevotja_aadress ""

/-- The per-entry match test of `RIKOpenDataClient.searchCompanies`
(lines 204–219): an `else if` chain over the registry-code, name and
free-text criteria.  No branch reads `params.address`. -/
def matchesParams (p : SearchParams) (c : BasicRecord) : Bool :=
  if jsTruthy p.registryCode && (c.ariregistri_kood == jsStr p.registryCode) then
    true
  else if jsTruthy p.name && (companyNameOf c != "")
      && strIncludes (companyNameOf c).toLower (jsStr p.name).toLower then
    true
  else if jsTruthy p.query then
    strIncludes (companyNameOf c ++ " " ++ companyAddressOf c).toLower
      (jsStr p.query).toLower
  else
    false

/-- The record pushed for a matching entry (lines 222–229). -/
structure ODCompany where
  registry_code : String
  name : String
  status : JStr
  status_text : JStr
  address : String
  vat_number : JStr
  deriving Repr, DecidableEq

/-- The object literal built for one matching map entry. -/
def toODCompany (c : BasicRecord) : ODCompany :=
  { registry_code := c.ariregistri_kood
    name := companyNameOf c
    status := c.ettevotja_staatus
    status_text := c.ettevotja_staatus_tekstina
    address := companyAddressOf c
    vat_number := c.kmkr_nr }

/-- The scan loop of `searchCompanies`: push each matching entry and stop
once the result count reaches the limit. -/
def searchGo (p : SearchParams) : List BasicRecord → Nat → List ODCompany
  | [], _ => []
  | c :: rest, remaining =>
    if matchesParams p c then
      toODCompany c :: (if remaining ≤ 1 then [] else searchGo p rest (remaining - 1))
    else
      searchGo p rest remaining

namespace RIKOpenDataClient

/-- `RIKOpenDataClient.searchCompanies` over the loaded basic-data map
(its entries in iteration order) with `params.limit || 100`. -/
def searchCompanies (data : List BasicRecord) (p : SearchParams) :
    List ODCompany :=
  searchGo p data (jsOrNum p.limit 100)

end RIKOpenDataClient

/-! ## Tiered Resolver Facade: `RIKClient`

`clients/index.ts`.  The facade composes the embedded-store client (only
when the store file exists, `dbClient : RIKDatabaseClient | null`) with
the file-backed open-data client.  Each tier is modelled by the outcome it
would produce if invoked — the value it returns (`Except.ok`) or the
exception it throws (`Except.error`) — and each facade run records whether
the fallback tier was actually invoked. -/

/-- Outcome of one tier: a returned value or a thrown exception. -/
abbrev TierResult (α : Type) := Except String α

/-- Result of one facade call plus whether the fallback tier ran. -/
structure FacadeRun (α : Type) where
  result : α
  usedFallback : Bool
  deriving Repr, DecidableEq

/-- `try { return await fallback(...) } catch { return [] }`: the fallback
tier's exception is swallowed into an empty list. -/
def fallbackOr (fb : TierResult (List α)) : List α :=
  match fb with
  | .ok rs => rs
  | .error _ => []

namespace RIKClient

/-- `RIKClient.searchCompanies` (index.ts lines 28–45): when the store
client exists, its result is returned on success — whether or not it is
empty; only a thrown exception (or an absent store) reaches the fallback
tier, whose own exception yields `[]`. -/
def searchCompanies (db : Option (TierResult (List α)))
    (fb : TierResult (List α)) : FacadeRun (List α) :=
  match db with
  | some (.ok rs) => ⟨rs, false⟩
  | some (.error _) => ⟨fallbackOr fb, true⟩
  | none => ⟨fallbackOr fb, true⟩

/-- `RIKClient.getCompanyDetails` (index.ts lines 47–59): a store success
is returned; otherwise the open-data tier is awaited with no surrounding
`try`, so its exception propagates to the caller as-is. -/
def getCompanyDetails (db : Option (TierResult α))
    (fb : TierResult α) : FacadeRun (TierResult α) :=
  match db with
  | some (.ok d) => ⟨.ok d, false⟩
  | some (.error _) => ⟨fb, true⟩
  | none => ⟨fb, true⟩

/-- `RIKClient.getBoardMembers` (index.ts lines 61–81): the store result
is returned only when it succeeds with a non-empty list; an empty success
or an exception advances to the fallback tier, whose exception yields
`[]`. -/
def getBoardMembers (db : Option (TierResult (List α)))
    (fb : TierResult (List α)) : FacadeRun (List α) :=
  match db with
  | some (.ok ms) => if ms.length > 0 then ⟨ms, false⟩ else ⟨fallbackOr fb, true⟩
  | some (.error _) => ⟨fallbackOr fb, true⟩
  | none => ⟨fallbackOr fb, true⟩

end RIKClient


/-! ## Concrete inputs used to exercise the theorems -/

/-- A person entry with only the name parts, role text and start date set. -/
def entryOf (first last role start : JStr) : PersonEntry :=
  { isiku_tyyp := none
    isiku_roll := none
    isiku_roll_tekstina := role
    eesnimi := first
    nimi_arinimi := last
    isikukood_hash := none
    algus_kpv := start
    lopp_kpv := none
    aadress_riik_tekstina := none
    aadress_ads := none
    email := none }

/-- Board-member entry "Mari Maasikas". -/
def exEntryMari : PersonEntry :=
  entryOf (some "Mari") (some "Maasikas") (some "Juhatuse liige") (some "2020-01-01")

/-- Board-member entry "Jaan Tamm". -/
def exEntryJaan : PersonEntry :=
  entryOf (some "Jaan") (some "Tamm") (some "Juhatuse liige") (some "2019-05-05")

/-- A dump with one company and one nested board-member entry. -/
def exDumpOnce : List DumpCompany :=
  [{ ariregistri_kood := "10000001", kaardile_kantud_isikud := some [exEntryMari] }]

/-- A dump with one company and two nested board-member entries. -/
def exDumpPair : List DumpCompany :=
  [{ ariregistri_kood := "12345678",
     kaardile_kantud_isikud := some [exEntryMari, exEntryJaan] }]

/-- A well-formed delimited file with the identifier column and one row. -/
def exCSVok : CSVFile :=
  { header := ["ariregistri_kood", "nimi"], rows := [["10000000", "Example OU"]] }

/-- A delimited file whose single data row has the wrong column count. -/
def exCSVbad : CSVFile :=
  { header := ["ariregistri_kood", "nimi"], rows := [["10000000"]] }

/-- The `companies` row produced by importing `exCSVok`. -/
def exCompany : CompanyRow :=
  { registry_code := some "10000000"
    name := some "Example OU"
    status := none
    status_text := none
    legal_form := none
    vat_number := none
    address := none
    location := none
    normalized_address := none
    postal_code := none
    first_registration_date := none }

/-- A `board_members` row with every nullable column `NULL`. -/
def exAnonRow : BoardMemberRow :=
  { registry_code := "10000001"
    person_type := none
    person_role := none
    role_text := none
    first_name := none
    last_name := none
    personal_code_hash := none
    start_date := none
    end_date := none
    address_country := none
    address_full := none
    email := none
    full_name := none }

/-- The member record the database client derives from `exAnonRow`. -/
def exMember : BoardMember :=
  { name := "Unknown", role := "Board Member", start_date := none, end_date := none }

/-- A basic-data map entry for the file-backed client. -/
def exRecord : BasicRecord :=
  { ariregistri_kood := "10000000"
    nimi := some "Example OU"
    nimiBom := none
    ettevotja_staatus := some "R"
    ettevotja_staatus_tekstina := some "Registered"
    ettevotja_aadress := some "Tallinn"
    kmkr_nr := none }

/-- Search criteria with only the address criterion set. -/
def exParamsAddr : SearchParams :=
  { registryCode := none, name := none, query := none,
    address := some "Tallinn", limit := none }

/-- The search result built from `exRecord`. -/
def exODCompany : ODCompany := toODCompany exRecord

/-! ## Lemmas about the importers and clients -/

theorem length_dumpRows (c : DumpCompany) :
    (dumpRows c).length = (c.kaardile_kantud_isikud.getD []).length := by
  simp [dumpRows]

theorem length_flatMap_dumpRows (dump : List DumpCompany) :
    (dump.flatMap dumpRows).length = dumpChildCount dump := by
  induction dump with
  | nil => simp [dumpChildCount]
  | cons c rest ih =>
    simp only [List.flatMap_cons, List.length_append, length_dumpRows,
      dumpChildCount, List.map_cons, List.sum_cons] at *
    omega

theorem length_importBoardMembers (table : List BoardMemberRow)
    (dump : List DumpCompany) :
    (importBoardMembers table dump).length = table.length + dumpChildCount dump := by
  unfold importBoardMembers
  rw [List.length_append, length_flatMap_dumpRows]

theorem wellKeyed_nil : wellKeyed [] := by
  constructor <;> simp [companyKeys]

theorem wellKeyed_insertOrReplace {t : List CompanyRow} {r : CompanyRow}
    (ht : wellKeyed t) (hr : r.registry_code ≠ none) :
    wellKeyed (insertOrReplaceCompany t r) := by
  obtain ⟨k, hk⟩ := Option.ne_none_iff_exists'.mp hr
  unfold insertOrReplaceCompany
  rw [hk]
  constructor
  · simp only [companyKeys, List.map_append, List.map_cons, List.map_nil]
    rw [List.nodup_append]
    refine ⟨?_, List.nodup_singleton _, ?_⟩
    · exact List.Nodup.sublist ((List.filter_sublist t).map _) ht.1
    · intro x hx
      simp only [List.mem_map, List.mem_filter, decide_eq_true_eq] at hx
      obtain ⟨row, ⟨_, hne⟩, hrow⟩ := hx
      simp only [List.mem_singleton]
      intro hcon
      rw [hk] at hcon
      exact hne (hcon ▸ hrow)
  · intro x hx
    rcases List.mem_append.mp hx with h | h
    · exact ht.2 x (List.mem_of_mem_filter h)
    · simp only [List.mem_singleton] at h
      subst h
      exact hr

theorem keys_insertOrReplace_toFinset {t : List CompanyRow} {r : CompanyRow}
    {k : String} (hk : r.registry_code = some k) :
    (companyKeys (insertOrReplaceCompany t r)).toFinset =
      insert (some k) (companyKeys t).toFinset := by
  unfold insertOrReplaceCompany
  rw [hk]
  ext x
  simp only [companyKeys, List.map_append, List.map_cons, List.map_nil,
    List.toFinset_append, Finset.mem_union, List.mem_toFinset, List.mem_map,
    List.mem_filter, Finset.mem_insert, List.toFinset_cons, List.toFinset_nil,
    insert_emptyc_eq, Finset.mem_singleton, hk]
  by_cases hx : x = some k
  · subst hx
    tauto
  · constructor
    · rintro (⟨row, ⟨hrow, _⟩, hkey⟩ | h)
      · exact Or.inr ⟨row, hrow, hkey⟩
      · exact absurd h hx
    · rintro (h | ⟨row, hrow, hkey⟩)
      · exact absurd h hx
      · exact Or.inl ⟨row, ⟨hrow, by simp [hkey, hx]⟩, hkey⟩

theorem wellKeyed_applyRows {t : List CompanyRow} {rs : List CompanyRow}
    (ht : wellKeyed t) (hrs : ∀ r ∈ rs, r.registry_code ≠ none) :
    wellKeyed (applyRows t rs) := by
  induction rs generalizing t with
  | nil => exact ht
  | cons r rest ih =>
    exact ih (wellKeyed_insertOrReplace ht (hrs r (by simp)))
      (fun x hx => hrs x (by simp [hx]))

theorem keys_applyRows_toFinset {t : List CompanyRow} {rs : List CompanyRow}
    (hrs : ∀ r ∈ rs, r.registry_code ≠ none) :
    (companyKeys (applyRows t rs)).toFinset =
      (companyKeys t).toFinset ∪ (companyKeys rs).toFinset := by
  induction rs generalizing t with
  | nil => simp [applyRows, companyKeys]
  | cons r rest ih =>
    obtain ⟨k, hk⟩ := Option.ne_none_iff_exists'.mp (hrs r (by simp))
    have step : applyRows t (r :: rest) = applyRows (insertOrReplaceCompany t r) rest := rfl
    rw [step, ih (fun x hx => hrs x (by simp [hx])), keys_insertOrReplace_toFinset hk]
    ext x
    simp only [Finset.mem_union, Finset.mem_insert, List.mem_toFinset,
      companyKeys, List.map_cons, List.mem_cons, hk]
    tauto

theorem length_eq_card_keys {t : List CompanyRow} (ht : wellKeyed t) :
    t.length = (companyKeys t).toFinset.card := by
  have hcard : (companyKeys t).toFinset.card = (companyKeys t).length :=
    List.toFinset_card_of_nodup ht.1
  rw [hcard]
  simp [companyKeys]

theorem fieldOf_zip_isSome {header row : List String} {key : String}
    (hmem : key ∈ header) (hlen : row.length = header.length) :
    (fieldOf (header.zip row) key).isSome := by
  induction header generalizing row with
  | nil => simp at hmem
  | cons h hs ih =>
    cases row with
    | nil => simp at hlen
    | cons v vs =>
      by_cases hkey : h = key
      · subst hkey
        simp [fieldOf, List.find?]
      · rcases List.mem_cons.mp hmem with hcon | htail
        · exact absurd hcon.symm hkey
        · have hstep : fieldOf ((h :: hs).zip (v :: vs)) key = fieldOf (hs.zip vs) key := by
            simp [fieldOf, List.find?_cons, hkey]
          rw [hstep]
          exact ih htail (by simpa using hlen)

theorem mkCompanyRow_key_ne_none {f : CSVFile} {row : List String}
    (hmem : "ariregistri_kood" ∈ f.header) (hlen : row.length = f.header.length) :
    (mkCompanyRow (f.header.zip row)).registry_code ≠ none := by
  have := fieldOf_zip_isSome hmem hlen
  simp only [mkCompanyRow]
  intro hcon
  rw [hcon] at this
  simp at this


theorem dateLe_total (a b : JStr) : dateLe a b ∨ dateLe b a := by
  cases a <;> cases b <;> simp [dateLe]
  exact le_total _ _

theorem dateLe_trans {a b c : JStr} (h₁ : dateLe a b) (h₂ : dateLe b c) :
    dateLe a c := by
  cases a <;> cases b <;> cases c <;> simp_all [dateLe]
  exact le_trans h₁ h₂
theorem jsOrStr_ne_empty {a b : String} (hb : b ≠ "") : jsOrStr a b ≠ "" := by
  unfold jsOrStr
  split <;> simp_all

theorem jsOr_ne_empty {a : JStr} {b : String} (hb : b ≠ "") : jsOr a b ≠ "" := by
  unfold jsOr
  split
  · rename_i h
    cases a with
    | none => simp [jsTruthy] at h
    | some s => simpa [jsStr] using of_decide_eq_true h
  · exact hb

theorem toBoardMember_name_ne_empty (m : BoardMemberRow) :
    (toBoardMember m).name ≠ "" :=
  jsOr_ne_empty (jsOrStr_ne_empty (by decide))

theorem toBoardMember_role_ne_empty (m : BoardMemberRow) :
    (toBoardMember m).role ≠ "" :=
  jsOr_ne_empty (by decide)

/-! ## Claims -/

/-- C6: importing the same delimited entity file twice produces the same
entity-row count as importing it once — `registry_code` is the primary key
and `INSERT OR REPLACE` is used, so a re-run replaces rather than
duplicates: the second run yields a table of the same length, the same set
of identifiers, and no duplicate identifiers (for any input file carrying
the identifier column). -/
theorem claim_C6 (f : CSVFile)
    (hkey : "ariregistri_kood" ∈ f.header)
    (n₁ : Nat) (t₁ : List CompanyRow) (n₂ : Nat) (t₂ : List CompanyRow)
    (h₁ : importCompaniesFromCSV [] f = .ok (n₁, t₁))
    (h₂ : importCompaniesFromCSV t₁ f = .ok (n₂, t₂)) :
    t₂.length = t₁.length ∧
      (companyKeys t₂).toFinset = (companyKeys t₁).toFinset ∧
      (companyKeys t₁).Nodup ∧ (companyKeys t₂).Nodup := by
  cases hp : parseRecords f with
  | error e => simp [importCompaniesFromCSV, hp, Except.map] at h₁
  | ok recs =>
    simp only [importCompaniesFromCSV, hp, Except.map, Except.ok.injEq,
      Prod.mk.injEq] at h₁ h₂
    obtain ⟨-, ht₁⟩ := h₁
    obtain ⟨-, ht₂⟩ := h₂
    have hrecs : ∀ rec ∈ recs, ∃ row ∈ f.rows,
        rec = f.header.zip row ∧ row.length = f.header.length := by
      intro rec hrec
      unfold parseRecords at hp
      split at hp
      · rename_i hall
        cases hp
        obtain ⟨row, hrow, hzip⟩ := List.mem_map.mp hrec
        exact ⟨row, hrow, hzip.symm, by
          simpa using List.all_eq_true.mp hall row hrow⟩
      · simp at hp
    have hall : ∀ r ∈ recs.map mkCompanyRow, r.registry_code ≠ none := by
      intro r hr
      obtain ⟨rec, hrec, hmk⟩ := List.mem_map.mp hr
      obtain ⟨row, -, hzip, hlen⟩ := hrecs rec hrec
      subst hzip
      exact hmk ▸ mkCompanyRow_key_ne_none hkey hlen
    have hfold₁ : t₁ = applyRows [] (recs.map mkCompanyRow) := by
      rw [← ht₁, applyRows, List.foldl_map]
    have hfold₂ : t₂ = applyRows t₁ (recs.map mkCompanyRow) := by
      rw [← ht₂, applyRows, List.foldl_map]
    have wk₁ : wellKeyed t₁ := hfold₁ ▸ wellKeyed_applyRows wellKeyed_nil hall
    have wk₂ : wellKeyed t₂ := hfold₂ ▸ wellKeyed_applyRows wk₁ hall
    have hk₁ : (companyKeys t₁).toFinset =
        (companyKeys (recs.map mkCompanyRow)).toFinset := by
      rw [hfold₁, keys_applyRows_toFinset hall]
      simp [companyKeys]
    have hk₂ : (companyKeys t₂).toFinset = (companyKeys t₁).toFinset := by
      rw [hfold₂, keys_applyRows_toFinset hall, hk₁, Finset.union_self]
    refine ⟨?_, hk₂, wk₁.1, wk₂.1⟩
    rw [length_eq_card_keys wk₁, length_eq_card_keys wk₂, hk₂]

/-- C6 (witness): importing `exCSVok` twice yields the same one-row table
both times, with a duplicate-free identifier column. -/
theorem claim_C6_witness :
    ("ariregistri_kood" ∈ exCSVok.header) ∧
      importCompaniesFromCSV [] exCSVok = .ok (1, [exCompany]) ∧
      importCompaniesFromCSV [exCompany] exCSVok = .ok (1, [exCompany]) ∧
      ([exCompany].length = [exCompany].length ∧
        (companyKeys [exCompany]).toFinset = (companyKeys [exCompany]).toFinset ∧
        (companyKeys [exCompany]).Nodup ∧ (companyKeys [exCompany]).Nodup) :=
  ⟨by decide, rfl, rfl,
    claim_C6 exCSVok (by decide) 1 [exCompany] 1 [exCompany] rfl rfl⟩

/-- C1 (counterexample): importing the same one-member JSON child dump
twice grows `board_members` from one row to two — the second import does
not leave the child-row count unchanged, because the child importer uses a
plain `INSERT` (no conflict clause, and no unique constraint to ignore
against). -/
theorem claim_C1_counterexample :
    (importBoardMembers (importBoardMembers [] exDumpOnce) exDumpOnce).length = 2 ∧
      (importBoardMembers [] exDumpOnce).length = 1 := by
  constructor <;> rfl

/-- C1 (amended): running the child importer a second time against the
same store appends every nested entry of the dump again: after two imports
of the same dump the `board_members` row count exceeds the first import's
count by exactly the dump's child count (it does not stay unchanged). -/
theorem claim_C1 (table : List BoardMemberRow) (dump : List DumpCompany) :
    (importBoardMembers table dump).length = table.length + dumpChildCount dump ∧
      (importBoardMembers (importBoardMembers table dump) dump).length =
        table.length + 2 * dumpChildCount dump := by
  constructor
  · exact length_importBoardMembers table dump
  · rw [length_importBoardMembers, length_importBoardMembers]
    omega

/-- C5 (counterexample): a delimited file whose single data row has the
wrong column count makes `importCompaniesFromCSV` reject the whole run
with the parser's `Invalid Record Length` error — the row is not skipped
and no skipped-row count exists. -/
theorem claim_C5_counterexample :
    importCompaniesFromCSV [] exCSVbad = .error "Invalid Record Length" := rfl

/-- C5 (amended): a malformed data row (wrong column count) makes the CSV
parser raise `Invalid Record Length`, rejecting the whole import run — no
skipped-row count is retained; importing a header-only file (zero data
rows) succeeds with zero entity rows inserted. -/
theorem claim_C5 :
    (∀ (t : List CompanyRow) (f : CSVFile),
      (∃ row ∈ f.rows, row.length ≠ f.header.length) →
        importCompaniesFromCSV t f = .error "Invalid Record Length") ∧
    (∀ (t : List CompanyRow) (header : List String),
      importCompaniesFromCSV t { header := header, rows := [] } = .ok (0, t)) := by
  constructor
  · intro t f hbad
    obtain ⟨row, hrow, hlen⟩ := hbad
    have hall : f.rows.all (fun r => r.length = f.header.length) = false := by
      rw [List.all_eq_false]
      exact ⟨row, hrow, by simpa using hlen⟩
    simp [importCompaniesFromCSV, parseRecords, hall, Except.map]
  · intro t header
    rfl

/-- C5 (witness): the header-only and malformed-row behaviors at concrete
inputs. -/
theorem claim_C5_witness :
    (∃ row ∈ exCSVbad.rows, row.length ≠ exCSVbad.header.length) ∧
      importCompaniesFromCSV [] exCSVbad = .error "Invalid Record Length" ∧
      importCompaniesFromCSV [] { header := ["ariregistri_kood"], rows := [] } =
        .ok (0, []) :=
  ⟨by decide, claim_C5.1 [] exCSVbad (by decide),
    claim_C5.2 [] ["ariregistri_kood"]⟩

/-- C7: every imported dump object yields exactly one `board_members` row
per nested entry; each produced row carries the parent object's
identifier, its stored `full_name` equals the generated concatenation of
its own name parts, and whenever both parts are present the full name is
the parts joined by a single space. -/
theorem claim_C7 (dump : List DumpCompany) :
    (importBoardMembers [] dump).length = dumpChildCount dump ∧
    ∀ r ∈ importBoardMembers [] dump,
      (∃ c ∈ dump, r.registry_code = c.ariregistri_kood ∧
        ∃ m ∈ c.kaardile_kantud_isikud.getD [], r = mkBoardRow c.ariregistri_kood m) ∧
      r.full_name = genFullName r.first_name r.last_name ∧
      (∀ f l, r.first_name = some f → r.last_name = some l →
        r.full_name = some (f ++ " " ++ l)) := by
  constructor
  · simpa using length_importBoardMembers [] dump
  · intro r hr
    unfold importBoardMembers at hr
    rw [List.nil_append, List.mem_flatMap] at hr
    obtain ⟨c, hc, hrc⟩ := hr
    unfold dumpRows at hrc
    obtain ⟨m, hm, hmk⟩ := List.mem_map.mp hrc
    subst hmk
    refine ⟨⟨c, hc, rfl, m, hm, rfl⟩, rfl, ?_⟩
    intro f l hf hl
    simp only [mkBoardRow] at hf hl ⊢
    simp [genFullName, hf, hl]

/-- C7 (witness): the dump with one object and two nested entries produces
exactly two rows, both referencing the parent identifier, with correctly
concatenated full names. -/
theorem claim_C7_witness :
    (importBoardMembers [] exDumpPair).length = dumpChildCount exDumpPair ∧
      mkBoardRow "12345678" exEntryMari ∈ importBoardMembers [] exDumpPair ∧
      (mkBoardRow "12345678" exEntryMari).full_name = some "Mari Maasikas" := by
  refine ⟨(claim_C7 exDumpPair).1, by decide, ?_⟩
  have h := ((claim_C7 exDumpPair).2 (mkBoardRow "12345678" exEntryMari) (by decide)).2.2
  exact h "Mari" "Maasikas" rfl rfl

/-- C4 (counterexample): querying an identifier absent from the entity
table makes `getCompanyDetails` throw (`Except.error`) — the client's
return type has no NotFound variant, so the absence is not an explicit
result value. -/
theorem claim_C4_counterexample :
    RIKDatabaseClient.getCompanyDetails [exCompany] [] "10000001" =
      .error "Company not found: 10000001" := rfl

/-- C4 (amended): for every identifier present in the entity table
`getCompanyDetails` returns the joined record and never an error; for
every absent identifier it throws a `Company not found` exception
(modelled as `Except.error`) rather than returning an explicit NotFound
result value. -/
theorem claim_C4 (companies : List CompanyRow) (general : List GeneralDataRow)
    (code : String) :
    ((∃ c ∈ companies, c.registry_code = some code) →
      ∃ d, RIKDatabaseClient.getCompanyDetails companies general code = .ok d) ∧
    ((∀ c ∈ companies, c.registry_code ≠ some code) →
      RIKDatabaseClient.getCompanyDetails companies general code =
        .error ("Company not found: " ++ code)) := by
  constructor
  · rintro ⟨c, hc, hkey⟩
    have hsome : (companies.find? (fun c => c.registry_code = some code)).isSome :=
      List.find?_isSome.mpr ⟨c, hc, by simp [hkey]⟩
    rcases hfind : companies.find? (fun c => c.registry_code = some code) with _ | c'
    · rw [hfind] at hsome
      simp at hsome
    · refine ⟨detailsOf c' (general.find? (fun g => g.registry_code = some code)), ?_⟩
      simp [RIKDatabaseClient.getCompanyDetails, hfind]
  · intro h
    have hfind : companies.find? (fun c => c.registry_code = some code) = none :=
      List.find?_eq_none.mpr (fun x hx => by simpa using h x hx)
    simp [RIKDatabaseClient.getCompanyDetails, hfind]

/-- C4 (witness): a store holding identifier `10000000` answers a details
query for it with a successful record. -/
theorem claim_C4_witness :
    (∃ c ∈ [exCompany], c.registry_code = some "10000000") ∧
      ∃ d, RIKDatabaseClient.getCompanyDetails [exCompany] [] "10000000" = .ok d :=
  ⟨⟨exCompany, by simp, rfl⟩,
    (claim_C4 [exCompany] [] "10000000").1 ⟨exCompany, by simp, rfl⟩⟩

/-- C8: `getBoardMembers` on the embedded store returns exactly the child
rows of the identifier (as a permutation of the filtered table, mapped to
member records), ordered by tenure-start date descending with `NULL`
dates last, and returns the empty list — not an error — when the
identifier has no child rows. -/
theorem claim_C8 (table : List BoardMemberRow) (code : String) :
    (RIKDatabaseClient.getBoardMembers table code).Perm
        ((table.filter (fun r => r.registry_code = code)).map toBoardMember) ∧
    (RIKDatabaseClient.getBoardMembers table code).Pairwise
        (fun x y => dateLe y.start_date x.start_date) ∧
    ((∀ r ∈ table, r.registry_code ≠ code) →
      RIKDatabaseClient.getBoardMembers table code = []) := by
  refine ⟨?_, ?_, ?_⟩
  · exact (List.perm_insertionSort bmDesc _).map toBoardMember
  · have hs := List.sorted_insertionSort bmDesc
      (table.filter (fun r => r.registry_code = code))
    exact List.Pairwise.map toBoardMember (fun a b hab => hab) hs
  · intro h
    have hfil : table.filter (fun r => r.registry_code = code) = [] := by
      rw [List.filter_eq_nil_iff]
      intro a ha
      simpa using h a ha
    simp [RIKDatabaseClient.getBoardMembers, hfil]

/-- C8 (witness): `getAffiliatedPersons("10000000")` on an empty child
table returns `[]`, not an error. -/
theorem claim_C8_witness :
    (∀ r ∈ ([] : List BoardMemberRow), r.registry_code ≠ "10000000") ∧
      RIKDatabaseClient.getBoardMembers [] "10000000" = [] :=
  ⟨by simp, (claim_C8 [] "10000000").2.2 (by simp)⟩

/-- C10: every member record returned by the embedded-store
`getBoardMembers` has a non-empty name and a non-empty role; the name is
the stored derived full name when that is present (truthy), otherwise the
trimmed concatenation of the first and last name parts, otherwise the
literal `Unknown`; the role falls back to the literal `Board Member` when
the stored role text is missing. -/
theorem claim_C10 (table : List BoardMemberRow) (code : String) :
    ∀ m ∈ RIKDatabaseClient.getBoardMembers table code,
      m.name ≠ "" ∧ m.role ≠ "" ∧
      ∃ r ∈ table, r.registry_code = code ∧ m = toBoardMember r ∧
        (jsTruthy r.full_name = true → some m.name = r.full_name) ∧
        (jsTruthy r.full_name = false →
          m.name = jsOrStr ((jsStr r.first_name ++ " " ++ jsStr r.last_name).trim)
            "Unknown") ∧
        (jsTruthy r.role_text = false → m.role = "Board Member") ∧
        (jsTruthy r.role_text = true → some m.role = r.role_text) := by
  intro m hm
  unfold RIKDatabaseClient.getBoardMembers at hm
  obtain ⟨r, hr, hmr⟩ := List.mem_map.mp hm
  have hrf : r ∈ table.filter (fun r => r.registry_code = code) :=
    (List.mem_insertionSort bmDesc).mp hr
  have hrt := List.mem_filter.mp hrf
  subst hmr
  refine ⟨toBoardMember_name_ne_empty r, toBoardMember_role_ne_empty r,
    r, hrt.1, by simpa using hrt.2, rfl, ?_, ?_, ?_, ?_⟩
  · intro htrue
    cases hfn : r.full_name with
    | none => rw [hfn] at htrue; simp [jsTruthy] at htrue
    | some s =>
        rw [hfn] at htrue
        simp [toBoardMember, jsOr, htrue, jsStr, hfn]
  · intro hfalse
    simp [toBoardMember, jsOr, hfalse]
  · intro hfalse
    simp [toBoardMember, jsOr, hfalse]
  · intro htrue
    cases hrl : r.role_text with
    | none => rw [hrl] at htrue; simp [jsTruthy] at htrue
    | some s =>
        rw [hrl] at htrue
        simp [toBoardMember, jsOr, htrue, jsStr, hrl]

/-- C10 (witness): a row with every name and role column `NULL` yields the
member record `Unknown` / `Board Member`, both non-empty. -/
theorem claim_C10_witness :
    toBoardMember exAnonRow ∈ RIKDatabaseClient.getBoardMembers [exAnonRow] "10000001" ∧
      (toBoardMember exAnonRow).name ≠ "" ∧ (toBoardMember exAnonRow).role ≠ "" := by
  have hres : RIKDatabaseClient.getBoardMembers [exAnonRow] "10000001" =
      [toBoardMember exAnonRow] := rfl
  have hmem : toBoardMember exAnonRow ∈
      RIKDatabaseClient.getBoardMembers [exAnonRow] "10000001" := by
    rw [hres]
    exact List.mem_singleton_self _
  have h := claim_C10 [exAnonRow] "10000001" (toBoardMember exAnonRow) hmem
  exact ⟨hmem, h.1, h.2.1⟩

/-- C2 (counterexample): when the store tier succeeds with an empty result
while the file-backed tier holds a matching record, `searchCompanies`
returns the store's empty result without invoking the fallback — so a
stage's result is *not* returned "exactly when" it succeeds non-empty. -/
theorem claim_C2_counterexample :
    RIKClient.searchCompanies (some (.ok ([] : List ODCompany))) (.ok [exODCompany]) =
      { result := [], usedFallback := false } := rfl

/-- C2 (amended): tiers are tried in the fixed order store then
file-backed fallback; `getBoardMembers` returns the store result without
invoking the fallback exactly when it succeeds non-empty, while
`searchCompanies` and `getCompanyDetails` return any successful store
result — empty included — without invoking the fallback; in particular,
whenever the store succeeds (so whenever it holds a matching record) the
later tier is never invoked, and the fallback runs when the store is
absent or throws. -/
theorem claim_C2 :
    (∀ (α : Type) (rs : List α) (fb : TierResult (List α)),
      RIKClient.searchCompanies (some (.ok rs)) fb =
        { result := rs, usedFallback := false }) ∧
    (∀ (α : Type) (d : α) (fb : TierResult α),
      RIKClient.getCompanyDetails (some (.ok d)) fb =
        { result := .ok d, usedFallback := false }) ∧
    (∀ (α : Type) (ms : List α) (fb : TierResult (List α)), ms ≠ [] →
      RIKClient.getBoardMembers (some (.ok ms)) fb =
        { result := ms, usedFallback := false }) ∧
    (∀ (α : Type) (fb : TierResult (List α)),
      RIKClient.getBoardMembers (some (.ok ([] : List α))) fb =
        { result := fallbackOr fb, usedFallback := true }) ∧
    (∀ (α : Type) (e : String) (fb : TierResult (List α)),
      RIKClient.searchCompanies (some (.error e)) fb =
        { result := fallbackOr fb, usedFallback := true }) ∧
    (∀ (α : Type) (fb : TierResult (List α)),
      RIKClient.searchCompanies none fb =
        { result := fallbackOr fb, usedFallback := true }) := by
  refine ⟨fun α rs fb => rfl, fun α d fb => rfl, ?_, fun α fb => rfl,
    fun α e fb => rfl, fun α fb => rfl⟩
  intro α ms fb h
  simp [RIKClient.getBoardMembers, List.length_pos.mpr h]

/-- C2 (witness): a store succeeding with one member record is returned
as-is with the fallback never invoked. -/
theorem claim_C2_witness :
    ([exMember] ≠ ([] : List BoardMember)) ∧
      RIKClient.getBoardMembers (some (.ok [exMember])) (.error "files missing") =
        { result := [exMember], usedFallback := false } :=
  ⟨by simp, claim_C2.2.2.1 BoardMember [exMember] (.error "files missing") (by simp)⟩

/-- C3 (counterexample): when both the store tier and the file-backed tier
throw, `searchCompanies` surfaces the empty list to the caller — not an
aggregated error. -/
theorem claim_C3_counterexample :
    RIKClient.searchCompanies (some (.error "database search failed"))
        (.error "open data search failed" : TierResult (List ODCompany)) =
      { result := [], usedFallback := true } := rfl

/-- C3 (amended): a store-tier exception is caught and the resolver
advances to the next tier rather than propagating it; but when every tier
fails, `searchCompanies` and `getBoardMembers` return the empty list (no
error is surfaced), and `getCompanyDetails` propagates the final tier's
own exception unchanged — no aggregated error exists. -/
theorem claim_C3 :
    (∀ (α : Type) (e : String) (fb : TierResult (List α)),
      RIKClient.searchCompanies (some (.error e)) fb =
        { result := fallbackOr fb, usedFallback := true }) ∧
    (∀ (α : Type) (e e' : String),
      RIKClient.searchCompanies (some (.error e))
          (.error e' : TierResult (List α)) =
        { result := [], usedFallback := true }) ∧
    (∀ (α : Type) (e e' : String),
      RIKClient.getBoardMembers (some (.error e))
          (.error e' : TierResult (List α)) =
        { result := [], usedFallback := true }) ∧
    (∀ (α : Type) (e e' : String),
      RIKClient.getCompanyDetails (some (.error e))
          (.error e' : TierResult α) =
        { result := .error e', usedFallback := true }) :=
  ⟨fun _ _ _ => rfl, fun _ _ _ => rfl, fun _ _ _ => rfl, fun _ _ _ => rfl⟩

/-- C9: a search handled by the file-backed client with only the address
criterion set (registry code, name and free-text query all unset/falsy)
returns the empty list for every loaded data set — the match logic never
consults the address criterion. -/
theorem claim_C9 (data : List BasicRecord) (p : SearchParams)
    (_haddr : jsTruthy p.address = true)
    (hrc : jsTruthy p.registryCode = false)
    (hname : jsTruthy p.name = false)
    (hquery : jsTruthy p.query = false) :
    RIKOpenDataClient.searchCompanies data p = [] := by
  have hmatch : ∀ c, matchesParams p c = false := by
    intro c
    simp [matchesParams, hrc, hname, hquery]
  unfold RIKOpenDataClient.searchCompanies
  generalize jsOrNum p.limit 100 = fuel
  induction data generalizing fuel with
  | nil => rfl
  | cons c rest ih => simp [searchGo, hmatch c, ih]

/-- C9 (witness): an address-only search over a loaded record whose
address even contains the searched text still returns `[]`. -/
theorem claim_C9_witness :
    jsTruthy exParamsAddr.address = true ∧
      jsTruthy exParamsAddr.registryCode = false ∧
      jsTruthy exParamsAddr.name = false ∧
      jsTruthy exParamsAddr.query = false ∧
      RIKOpenDataClient.searchCompanies [exRecord] exParamsAddr = [] :=
  ⟨by decide, rfl, rfl, rfl, claim_C9 [exRecord] exParamsAddr (by decide) rfl rfl rfl⟩

end EstoniaKit
